import Mathlib

/-!
Shallow embedding of the rapidsai-deployment repository:

* `source/examples/rapids-sagemaker-hpo/serve.py` — the Flask inference
  server for SageMaker hosting of RAPIDS models (routes `/ping` and
  `/invocations`, `lru_cache`-d `load_trained_model`, `predict`).
* `source/conf.py` — the Sphinx configuration (stable/nightly version
  bundle selection from `DEPLOYMENT_DOCS_BUILD_STABLE`).
* `scripts/gen_release_checklist_issue.py` — the release-checklist
  generator (file walk, priority grouping, URL construction, sorting).

Numeric model data is embedded as `ℚ`; third-party ML models (xgboost,
cuml, joblib artefacts) are abstract prediction functions, since the
script only calls their `predict`.  Python exceptions are `Except.error`;
an `Except.error` escaping a handler is an unhandled exception.
-/

/- ## String utilities (char-list level, matching Python semantics) -/

/-- Python `needle in hay` prefix step: does `hay` start with the first list? -/
def hasPrefixCL : List Char → List Char → Bool
  | [], _ => true
  | _ :: _, [] => false
  | a :: as, b :: bs => a == b && hasPrefixCL as bs

/-- Contiguous-sublist test on char lists (Python substring containment). -/
def containsCL (hay needle : List Char) : Bool :=
  hasPrefixCL needle hay ||
    match hay with
    | [] => false
    | _ :: t => containsCL t needle

/-- Python `needle in hay` on strings. -/
def strContains (hay needle : String) : Bool := containsCL hay.data needle.data

/-- Lexicographic code-point comparison of char lists: exactly how Python
compares `str` values (and hence how `sorted` orders URL strings). -/
def lexLe : List Char → List Char → Bool
  | [], _ => true
  | _ :: _, [] => false
  | a :: as, b :: bs => if a < b then true else if b < a then false else lexLe as bs

/-- Python `<=` on strings, used as the sort order for checklist URLs. -/
def urlLe (a b : String) : Bool := lexLe a.data b.data

/-- The URL order as a relation, for sorting. -/
def urlRel (a b : String) : Prop := urlLe a b = true

instance urlRelDec : DecidableRel urlRel := fun a b => instDecidableEqBool (urlLe a b) true

/-- Python `sorted(pages, key=lambda x: x["url"])`: a stable sort by the
URL order. -/
def sortUrls (urls : List String) : List String := List.insertionSort urlRel urls

/- ## serve.py: data model -/

/-- A third-party trained ML model (xgboost booster / cuml ForestInference /
joblib-loaded estimator).  The serving script only ever calls its
`predict`, so it is embedded as a bare prediction function over `ℚ` data. -/
structure MLModel where
  predict : List ℚ → List ℚ

/-- The `model_type` string set by `load_trained_model`. -/
inductive ModelType
  | XGBoost
  | RandomForest
  | KMeans
deriving DecidableEq, Repr

/-- Results of the three `glob.glob` calls in `load_trained_model`, in the
order the filesystem returns them: `/opt/ml/model/*_xgb`, `*_rf`, `*_kmeans`. -/
structure ModelFS where
  xgbModels : List String
  rfModels : List String
  kmeansModels : List String

/-- Ambient third-party library behaviour: whether the GPU imports
succeeded (`GPU_INFERENCE_FLAG`) and what model each deserializer yields
for a given filename (`ForestInference.load`, `xgboost.Booster.load_model`,
`joblib.load`). -/
structure ServeEnv where
  gpuInferenceFlag : Bool
  loadForestInference : String → MLModel
  loadXgbBooster : String → MLModel
  loadJoblib : String → MLModel

/-- Process state of the Flask server: the `lru_cache` slot of
`load_trained_model` and a ghost counter of how many times the cached
function's body (scan + deserialization) actually ran. -/
structure ServerState where
  cache : Option (MLModel × ModelType × String)
  loadCount : Nat

/-- State before `serve()` runs: empty cache, no loads performed. -/
def initialServerState : ServerState := { cache := none, loadCount := 0 }

/-- A Flask `Response(response=..., status=..., mimetype=...)`. -/
structure HttpResponse where
  status : Nat
  body : String
  mimetype : String
deriving DecidableEq, Repr

/- ## serve.py: model loading -/

/-- Body of `load_trained_model` (serve.py lines 70-106): the filesystem
scan and deserialization, selecting XGBoost, then RandomForest, then
KMeans by filename pattern, raising when nothing matches. -/
def load_trained_model_impl (env : ServeEnv) (fs : ModelFS) :
    Except String (MLModel × ModelType × String) :=
  if fs.xgbModels.length ≠ 0 then
    let model_filename := fs.xgbModels.headD ""
    let reloaded_model :=
      if env.gpuInferenceFlag then env.loadForestInference model_filename
      else env.loadXgbBooster model_filename
    .ok (reloaded_model, ModelType.XGBoost, model_filename)
  else if fs.rfModels.length ≠ 0 then
    let model_filename := fs.rfModels.headD ""
    .ok (env.loadJoblib model_filename, ModelType.RandomForest, model_filename)
  else if fs.kmeansModels.length ≠ 0 then
    let model_filename := fs.kmeansModels.headD ""
    .ok (env.loadJoblib model_filename, ModelType.KMeans, model_filename)
  else
    .error "! No trained models detected"

/-- `load_trained_model` as called (serve.py lines 64-65, 133, 197): the
`@lru_cache` wrapper.  A cached value is returned as is; otherwise the
body runs (bumping the ghost counter) and a successful result is cached.
`lru_cache` does not cache raised exceptions. -/
def load_trained_model (env : ServeEnv) (fs : ModelFS) (st : ServerState) :
    Except String (MLModel × ModelType × String) × ServerState :=
  match st.cache with
  | some t => (.ok t, st)
  | none =>
    match load_trained_model_impl env fs with
    | .ok t => (.ok t, { cache := some t, loadCount := st.loadCount + 1 })
    | .error e => (.error e, { st with loadCount := st.loadCount + 1 })

/- ## serve.py: request handling -/

/-- The `/ping` handler's `Response(response="\n", status=200)` (Flask's
default mimetype is text/html). -/
def pingResponse : HttpResponse := { status := 200, body := "\n", mimetype := "text/html" }

/-- The 415 response of `predict` when the request body cannot be parsed
(serve.py lines 125-130); the two adjacent Python string literals
concatenate. -/
def parseFailureResponse : HttpResponse :=
  { status := 415,
    body := "Unable to parse input data" ++ "[ should be json/string encoded list of arrays ]",
    mimetype := "text/csv" }

/-- Elementwise `(predictions > xgboost_threshold) * 1.0` (serve.py line 148). -/
def binarize (xgboost_threshold : ℚ) (p : ℚ) : ℚ :=
  if p > xgboost_threshold then 1 else 0

/-- `json.dumps(predictions.tolist())` (serve.py line 182). -/
def jsonDumps (xs : List ℚ) : String :=
  "[" ++ String.intercalate ", " (xs.map toString) ++ "]"

/-- The `try` block of `predict` (serve.py lines 135-178): run inference
for the loaded model type.  Both the FIL path and the native-XGBoost path
call the third-party predict (the `xgboost.DMatrix` wrapping and the
`astype("float32")` dtype casts are third-party data conversions, identity
here); XGBoost outputs are binarized against the threshold; CPU inference
on a GPU-trained RandomForest/KMeans model raises. -/
def runInference (env : ServeEnv) (xgboost_threshold : ℚ) (reloaded_model : MLModel)
    (model_type : ModelType) (model_filename : String) (query_data : List ℚ) :
    Except String (List ℚ) :=
  match model_type with
  | ModelType.XGBoost =>
    let predictions :=
      if env.gpuInferenceFlag then reloaded_model.predict query_data
      else reloaded_model.predict query_data
    .ok (predictions.map (binarize xgboost_threshold))
  | ModelType.RandomForest =>
    if strContains model_filename "gpu" && !env.gpuInferenceFlag then
      .error ("attempting to run CPU inference " ++ "on a GPU trained RandomForest model")
    else
      .ok (reloaded_model.predict query_data)
  | ModelType.KMeans =>
    if strContains model_filename "gpu" && !env.gpuInferenceFlag then
      .error ("attempting to run CPU inference " ++ "on a GPU trained KMeans model")
    else
      .ok (reloaded_model.predict query_data)

/-- The `/invocations` handler `predict` (serve.py lines 108-194).
`parsedBody` is the outcome of `json.loads` + `numpy.array` on the request
data: `none` when that raises (handled: 415), `some query_data` otherwise.
The `load_trained_model()` call sits outside both `try` blocks, so its
exception escapes the handler (`Except.error`).  An inference exception is
handled into a 400 response; success serializes the predictions to JSON. -/
def predict (env : ServeEnv) (fs : ModelFS) (xgboost_threshold : ℚ)
    (parsedBody : Option (List ℚ)) (st : ServerState) :
    Except String HttpResponse × ServerState :=
  match parsedBody with
  | none => (.ok parseFailureResponse, st)
  | some query_data =>
    match load_trained_model env fs st with
    | (.error e, st2) => (.error e, st2)
    | (.ok (reloaded_model, model_type, model_filename), st2) =>
      match runInference env xgboost_threshold reloaded_model model_type model_filename
          query_data with
      | .ok predictions =>
        (.ok { status := 200, body := jsonDumps predictions, mimetype := "text/csv" }, st2)
      | .error inference_error =>
        (.ok { status := 400, body := "Inference failure: " ++ inference_error ++ "\n",
               mimetype := "text/csv" }, st2)

/- ## serve.py: app routes and server loop -/

inductive HttpMethod
  | GET
  | POST
deriving DecidableEq, Repr

structure Route where
  path : String
  method : HttpMethod
deriving DecidableEq, Repr

/-- The routes registered on the Flask app by `serve()`: `@app.route("/ping",
methods=["GET"])` and `@app.route("/invocations", methods=["POST"])`. -/
def serveRoutes : List Route :=
  [{ path := "/ping", method := HttpMethod.GET },
   { path := "/invocations", method := HttpMethod.POST }]

/-- An incoming HTTP request the app can serve. -/
inductive HttpRequest
  | ping
  | invocations (parsedBody : Option (List ℚ))

/-- The route a request is dispatched on. -/
def routeOf : HttpRequest → Route
  | HttpRequest.ping => { path := "/ping", method := HttpMethod.GET }
  | HttpRequest.invocations _ => { path := "/invocations", method := HttpMethod.POST }

/-- Dispatch of one request to its handler. -/
def handleRequest (env : ServeEnv) (fs : ModelFS) (xgboost_threshold : ℚ)
    (st : ServerState) : HttpRequest → Except String HttpResponse × ServerState
  | HttpRequest.ping => (.ok pingResponse, st)
  | HttpRequest.invocations parsedBody => predict env fs xgboost_threshold parsedBody st

/-- Server state after handling a sequence of requests. -/
def runRequests (env : ServeEnv) (fs : ModelFS) (xgboost_threshold : ℚ) :
    ServerState → List HttpRequest → ServerState
  | st, [] => st
  | st, r :: rs => runRequests env fs xgboost_threshold (handleRequest env fs xgboost_threshold st r).2 rs

/-- Startup of `serve()` (serve.py line 197): the initial call of
`load_trained_model` made before `app.run`.  If it raises, `serve` raises;
otherwise the server enters its request loop in the resulting state. -/
def serveInit (env : ServeEnv) (fs : ModelFS) : Except String ServerState :=
  match load_trained_model env fs initialServerState with
  | (.ok _, st) => .ok st
  | (.error e, _) => .error e

/-- The default `xgboost_threshold=0.5` of `serve` (serve.py line 47). -/
def defaultXgboostThreshold : ℚ := ⟨1, 2, by decide, by decide⟩

/- ## conf.py -/

/-- One entry of the `versions` dict in conf.py (the two derived
`_list` fields added on lines 60-67 are computed afterwards from the
selected bundle and are not part of the dict literal). -/
structure VersionBundle where
  rapids_version : String
  rapids_api_docs_version : String
  rapids_container : String
  rapids_notebooks_container : String
  rapids_conda_channels : String
  rapids_conda_packages : String
  rapids_pip_index : String
  rapids_pip_version : String
  rapids_sagemaker_conda_packages : String
deriving DecidableEq, Repr

def stable_version : String := "25.06"

def nightly_version : String := "25.08"

/-- `versions["stable"]` (conf.py lines 28-40). -/
def versions_stable : VersionBundle :=
  { rapids_version := stable_version,
    rapids_api_docs_version := "stable",
    rapids_container := "nvcr.io/nvidia/rapidsai/base:" ++ stable_version ++ "-cuda12.8-py3.12",
    rapids_notebooks_container :=
      "nvcr.io/nvidia/rapidsai/notebooks:" ++ stable_version ++ "-cuda12.8-py3.12",
    rapids_conda_channels := "-c rapidsai -c conda-forge -c nvidia",
    rapids_conda_packages := "rapids=" ++ stable_version ++ " python=3.12 cuda-version=12.8",
    rapids_pip_index := "https://pypi.nvidia.com",
    rapids_pip_version := stable_version,
    rapids_sagemaker_conda_packages := "rapids=24.12 python=3.12 cuda-version=12.5" }

/-- `versions["nightly"]` (conf.py lines 41-53). -/
def versions_nightly : VersionBundle :=
  { rapids_version := nightly_version,
    rapids_api_docs_version := "nightly",
    rapids_container := "rapidsai/base:" ++ (nightly_version ++ "a") ++ "-cuda12.9-py3.12",
    rapids_notebooks_container :=
      "rapidsai/notebooks:" ++ (nightly_version ++ "a") ++ "-cuda12.9-py3.12",
    rapids_conda_channels := "-c rapidsai-nightly -c conda-forge -c nvidia",
    rapids_conda_packages := "rapids=" ++ nightly_version ++ " python=3.12 cuda-version=12.9",
    rapids_pip_index := "https://pypi.anaconda.org/rapidsai-wheels-nightly/simple",
    rapids_pip_version := nightly_version ++ ".*,>=0.0.0a0",
    rapids_sagemaker_conda_packages := "rapids=24.12 python=3.12 cuda-version=12.5" }

/-- `rapids_version` selection (conf.py lines 55-59):
`versions["stable"] if os.environ.get("DEPLOYMENT_DOCS_BUILD_STABLE", "false") == "true"
else versions["nightly"]`, with the environment lookup embedded as an
`Option String`. -/
def rapids_version (deploymentDocsBuildStable : Option String) : VersionBundle :=
  if deploymentDocsBuildStable.getD "false" = "true" then versions_stable
  else versions_nightly

/- ## gen_release_checklist_issue.py -/

/-- A regular file found by `rglob` under the `source/` directory:
its directory components and filename relative to `source/`, plus the
`review_priority` front-matter value if the file has one (`str()` of it);
`KeyError` on a missing key is the `none` case. -/
structure SrcFile where
  dirs : List String
  filename : String
  reviewPriority : Option String
deriving DecidableEq, Repr

/-- `file.parts` relative to `source/` (the script's checks on `parts` only
concern components below `source/`). -/
def SrcFile.parts (f : SrcFile) : List String := f.dirs ++ [f.filename]

/-- Index of the last `'.'` in a char list, if any (Python `str.rfind('.')`). -/
def lastDotIdxAux : List Char → Nat → Option Nat → Option Nat
  | [], _, acc => acc
  | c :: cs, i, acc => lastDotIdxAux cs (i + 1) (if c = '.' then some i else acc)

def lastDotIdx (cs : List Char) : Option Nat := lastDotIdxAux cs 0 none

/-- `PurePath.suffix`: the final `.ext` of a name, empty for dotfiles and
names without an internal dot (CPython: `name[i:]` when `0 < i < len-1`
for `i = name.rfind('.')`). -/
def pathSuffix (name : String) : String :=
  match lastDotIdx name.data with
  | none => ""
  | some i => if 0 < i ∧ i < name.data.length - 1 then String.mk (name.data.drop i) else ""

/-- `PurePath.with_suffix("")` applied to a name: drop its suffix. -/
def stemOf (name : String) : String :=
  String.mk (name.data.take (name.data.length - (pathSuffix name).data.length))

/-- The walk filter (script lines 40-44): suffix in `[".ipynb", ".md"]`,
not inside `_includes`, not inside `.ipynb_checkpoints`. -/
def eligible (f : SrcFile) : Bool :=
  (pathSuffix f.filename == ".ipynb" || pathSuffix f.filename == ".md") &&
    !(f.parts.contains "_includes") && !(f.parts.contains ".ipynb_checkpoints")

/-- The page priority (script lines 50-58): `"p2"` default, overridden for
`.md` files by the `review_priority` front-matter entry when present
(notebooks always default). -/
def priorityOf (f : SrcFile) : String :=
  if pathSuffix f.filename == ".md" then
    match f.reviewPriority with
    | some p => p
    | none => "p2"
  else "p2"

/-- `rel_path` before URL rendering (script lines 45-49): the parent
directory when `"index.md"` is among the parts, else the file itself. -/
def relParts (f : SrcFile) : List String :=
  if f.parts.contains "index.md" then f.dirs else f.parts

/-- `rel_path` as a string (script lines 60-65): suffix-stripped when it
has a name, `""` when it is `"."`. -/
def relStr (f : SrcFile) : String :=
  match relParts f with
  | [] => ""
  | ps => String.intercalate "/" (ps.dropLast ++ [stemOf (ps.getLastD "")])

def baseUrl : String := "https://docs.rapids.ai/deployment/nightly/"

/-- The checklist URL of a page (script line 69). -/
def urlOf (f : SrcFile) : String := baseUrl ++ relStr f

/-- `str(file)` relative to `source/`, as interpolated in the `ValueError`
message. -/
def pathStr (f : SrcFile) : String := String.intercalate "/" f.parts

/-- A single-quote character, kept out of string literals. -/
def quoteCh : String := String.singleton (Char.ofNat 39)

/-- The `ValueError` message of script line 75. -/
def unknownPriorityMsg (p fileStr : String) : String :=
  "Unknown review_priority " ++ quoteCh ++ p ++ quoteCh ++ " for page " ++ fileStr

/-- The `priority_lists` accumulator (script lines 31-36): page URLs per
priority key, in insertion order. -/
structure PriorityLists where
  index : List String
  p0 : List String
  p1 : List String
  p2 : List String
deriving DecidableEq, Repr

def emptyPriorityLists : PriorityLists := { index := [], p0 := [], p1 := [], p2 := [] }

/-- One iteration of the walk loop (script lines 39-75): skip ineligible
files, append the page's URL to its priority bucket, raise `ValueError` on
an unknown priority. -/
def addFile (pl : PriorityLists) (f : SrcFile) : Except String PriorityLists :=
  if eligible f then
    let url := urlOf f
    if priorityOf f = "index" then .ok { pl with index := pl.index ++ [url] }
    else if priorityOf f = "p0" then .ok { pl with p0 := pl.p0 ++ [url] }
    else if priorityOf f = "p1" then .ok { pl with p1 := pl.p1 ++ [url] }
    else if priorityOf f = "p2" then .ok { pl with p2 := pl.p2 ++ [url] }
    else .error (unknownPriorityMsg (priorityOf f) (pathStr f))
  else .ok pl

/-- The whole walk over the files `rglob` yields, in order. -/
def buildLists : List SrcFile → PriorityLists → Except String PriorityLists
  | [], pl => .ok pl
  | f :: rest, pl =>
    match addFile pl f with
    | .ok pl2 => buildLists rest pl2
    | .error e => .error e

/-- The printing loop (script lines 77-84): sections in dict insertion
order (index, p0, p1, p2), empty sections skipped, pages sorted by URL. -/
def renderSections (pl : PriorityLists) : List (String × List String) :=
  [("Index/Non-technical", pl.index), ("P0", pl.p0), ("P1", pl.p1),
   ("P2", pl.p2)].filterMap fun s =>
    if s.2 = [] then none else some (s.1, sortUrls s.2)

/-- The full script on a directory listing: the emitted sections, or the
`ValueError` message. -/
def genChecklist (files : List SrcFile) : Except String (List (String × List String)) :=
  (buildLists files emptyPriorityLists).map renderSections

/- ## gen_release_checklist_issue.py: the claimed characterization,
stated from the claim's words rather than from the loop -/

def validPriorities : List String := ["index", "p0", "p1", "p2"]

/-- Group heading of each priority. -/
def sectionName (p : String) : String :=
  if p = "index" then "Index/Non-technical"
  else if p = "p0" then "P0"
  else if p = "p1" then "P1"
  else "P2"

/-- The URLs of the eligible pages of one priority, in walk order: one
entry per file. -/
def urlsFor (p : String) (files : List SrcFile) : List String :=
  (files.filter fun f => eligible f && decide (priorityOf f = p)).map urlOf

/-- The checklist as the claim describes it: the fixed group order with
empty groups omitted, each group holding its pages' URLs in ascending
order. -/
def specChecklist (files : List SrcFile) : List (String × List String) :=
  validPriorities.filterMap fun p =>
    if urlsFor p files = [] then none
    else some (sectionName p, sortUrls (urlsFor p files))

/- ## concrete instances used for witnesses and counterexamples -/

/-- A model with a constant prediction output. -/
def mlModel (out : List ℚ) : MLModel := { predict := fun _ => out }

/-- A CPU-only environment whose deserializers yield constant models. -/
def env0 : ServeEnv :=
  { gpuInferenceFlag := false,
    loadForestInference := fun _ => mlModel [0],
    loadXgbBooster := fun _ => mlModel [2],
    loadJoblib := fun _ => mlModel [3] }

/-- A model directory holding a single XGBoost artefact. -/
def fs0 : ModelFS :=
  { xgbModels := ["/opt/ml/model/airline_xgb"], rfModels := [], kmeansModels := [] }

/-- An empty model directory. -/
def fsEmpty : ModelFS := { xgbModels := [], rfModels := [], kmeansModels := [] }

/-- The server state `serve()` reaches on `env0`/`fs0` after its startup
load. -/
def st1 : ServerState :=
  { cache := some (env0.loadXgbBooster "/opt/ml/model/airline_xgb", ModelType.XGBoost,
                   "/opt/ml/model/airline_xgb"),
    loadCount := 1 }

/-- A state holding a cached CPU-trained RandomForest model. -/
def stRf : ServerState :=
  { cache := some (mlModel [3], ModelType.RandomForest, "/opt/ml/model/airline_rf"),
    loadCount := 1 }

/-- A state holding a cached GPU-trained RandomForest model. -/
def stRfGpu : ServerState :=
  { cache := some (mlModel [3], ModelType.RandomForest, "/opt/ml/model/airline_gpu_rf"),
    loadCount := 1 }

/-- A top-level `index.md` page with priority `index`. -/
def demoIndexFile : SrcFile := { dirs := [], filename := "index.md", reviewPriority := some "index" }

/-- A `p0` page in a subdirectory. -/
def demoTools : SrcFile := { dirs := ["tools"], filename := "dask.md", reviewPriority := some "p0" }

/-- A notebook (always `p2`). -/
def demoNotebook : SrcFile :=
  { dirs := ["examples", "xgboost"], filename := "notebook.ipynb", reviewPriority := none }

/-- A page with an out-of-range priority. -/
def demoBad : SrcFile := { dirs := [], filename := "bad.md", reviewPriority := some "p9" }

/- ## order lemmas for the URL sort -/

theorem lexLe_total (a b : List Char) : (lexLe a b || lexLe b a) = true := by
  induction a generalizing b with
  | nil => cases b <;> simp [lexLe]
  | cons x xs ih =>
    cases b with
    | nil => simp [lexLe]
    | cons y ys =>
      simp only [lexLe]
      rcases lt_trichotomy x y with h | h | h
      · simp [h, lt_asymm h]
      · subst h
        simp [lt_irrefl, ih ys]
      · simp [h, lt_asymm h]

theorem lexLe_trans (a b c : List Char) (hab : lexLe a b = true) (hbc : lexLe b c = true) :
    lexLe a c = true := by
  induction a generalizing b c with
  | nil => simp [lexLe]
  | cons x xs ih =>
    cases b with
    | nil => simp [lexLe] at hab
    | cons y ys =>
      cases c with
      | nil => simp [lexLe] at hbc
      | cons z zs =>
        simp only [lexLe] at hab hbc ⊢
        by_cases hxy : x < y
        · by_cases hyz : y < z
          · simp [lt_trans hxy hyz]
          · by_cases hzy : z < y
            · simp [hyz, hzy] at hbc
            · have hyez : y = z := le_antisymm (not_lt.mp hzy) (not_lt.mp hyz)
              have hxz : x < z := hyez ▸ hxy
              simp [hxz]
        · by_cases hyx : y < x
          · simp [hxy, hyx] at hab
          · have hxey : x = y := le_antisymm (not_lt.mp hyx) (not_lt.mp hxy)
            subst hxey
            simp only [lt_irrefl, if_false] at hab
            by_cases hxz : x < z
            · simp [hxz]
            · by_cases hzx : z < x
              · simp [hxz, hzx] at hbc
              · simp only [hxz, hzx, if_false] at hbc ⊢
                exact ih ys zs hab hbc

theorem urlLe_total (a b : String) : (urlLe a b || urlLe b a) = true :=
  lexLe_total a.data b.data

theorem urlLe_trans (a b c : String) (hab : urlLe a b = true) (hbc : urlLe b c = true) :
    urlLe a c = true :=
  lexLe_trans a.data b.data c.data hab hbc

/- ## claim theorems: conf.py -/

/-- C9: the Sphinx configuration selects the stable version bundle if and
only if `DEPLOYMENT_DOCS_BUILD_STABLE` is exactly the string "true"; any
other value, including the variable being unset, selects the nightly
bundle. -/
theorem C9_stable_bundle_selection : ∀ envVar : Option String,
    rapids_version envVar =
      (if envVar = some "true" then versions_stable else versions_nightly) ∧
    (rapids_version envVar = versions_stable ↔ envVar = some "true") := by
  intro v
  have hne : versions_nightly ≠ versions_stable := by decide
  have h1 : rapids_version v =
      (if v = some "true" then versions_stable else versions_nightly) := by
    cases v with
    | none => simp [rapids_version]
    | some s =>
      by_cases hs : s = "true"
      · subst hs; simp [rapids_version]
      · simp [rapids_version, hs]
  refine ⟨h1, ?_⟩
  rw [h1]
  by_cases hv : v = some "true"
  · simp [hv]
  · simp [hv, hne]

/- ## claim theorems: serve.py routes -/

/-- C4: the Flask app registers exactly two routes — GET /ping and
POST /invocations — and no others; every request the app serves is
dispatched on one of them. -/
theorem C4_two_routes :
    serveRoutes = [{ path := "/ping", method := HttpMethod.GET },
                   { path := "/invocations", method := HttpMethod.POST }] ∧
    serveRoutes.length = 2 ∧ serveRoutes.Nodup ∧
    ∀ r : HttpRequest, routeOf r ∈ serveRoutes := by
  refine ⟨rfl, rfl, by decide, ?_⟩
  intro r
  cases r <;> simp [routeOf, serveRoutes]

/- ## claim theorems: parse failure handling -/

/-- C6: when the body of a POST /invocations request cannot be parsed as
JSON and converted to a numpy array, the handler returns HTTP 415 with the
fixed "Unable to parse input data" message, before `load_trained_model` is
called and leaving server state unchanged — for every environment, model
directory and state, including an empty cache over an empty model
directory, where an attempted load would have raised or bumped the load
counter. -/
theorem C6_parse_failure_415 : ∀ (env : ServeEnv) (fs : ModelFS) (thr : ℚ) (st : ServerState),
    predict env fs thr none st = (.ok parseFailureResponse, st) ∧
    parseFailureResponse.status = 415 ∧
    parseFailureResponse.body =
      "Unable to parse input data[ should be json/string encoded list of arrays ]" := by
  intro env fs thr st
  exact ⟨rfl, rfl, rfl⟩

/- ## claim theorems: model selection precedence -/

/-- C7: `load_trained_model` selects the model by fixed precedence — the
first `*_xgb` glob result as XGBoost, else the first `*_rf` result as
RandomForest, else the first `*_kmeans` result as KMeans — and raises
exactly when no file matches any of the three patterns. -/
theorem C7_model_precedence : ∀ (env : ServeEnv) (fs : ModelFS),
    (∀ x xs, fs.xgbModels = x :: xs →
      load_trained_model_impl env fs =
        .ok (if env.gpuInferenceFlag then env.loadForestInference x else env.loadXgbBooster x,
             ModelType.XGBoost, x)) ∧
    (fs.xgbModels = [] → ∀ x xs, fs.rfModels = x :: xs →
      load_trained_model_impl env fs = .ok (env.loadJoblib x, ModelType.RandomForest, x)) ∧
    (fs.xgbModels = [] → fs.rfModels = [] → ∀ x xs, fs.kmeansModels = x :: xs →
      load_trained_model_impl env fs = .ok (env.loadJoblib x, ModelType.KMeans, x)) ∧
    ((∃ e, load_trained_model_impl env fs = .error e) ↔
      fs.xgbModels = [] ∧ fs.rfModels = [] ∧ fs.kmeansModels = []) := by
  intro env fs
  refine ⟨?_, ?_, ?_, ?_⟩
  · intro x xs hx
    simp [load_trained_model_impl, hx]
  · intro hx x xs hr
    simp [load_trained_model_impl, hx, hr]
  · intro hx hr x xs hk
    simp [load_trained_model_impl, hx, hr, hk]
  · constructor
    · rintro ⟨e, he⟩
      cases hx : fs.xgbModels with
      | cons a as => simp [load_trained_model_impl, hx] at he
      | nil =>
        cases hr : fs.rfModels with
        | cons a as => simp [load_trained_model_impl, hx, hr] at he
        | nil =>
          cases hk : fs.kmeansModels with
          | cons a as => simp [load_trained_model_impl, hx, hr, hk] at he
          | nil => exact ⟨rfl, rfl, rfl⟩
    · rintro ⟨hx, hr, hk⟩
      exact ⟨"! No trained models detected", by simp [load_trained_model_impl, hx, hr, hk]⟩

/-- C7 witness: on a directory holding a single XGBoost artefact, the CPU
environment loads it with the native XGBoost deserializer. -/
theorem C7_model_precedence_witness :
    load_trained_model_impl env0 fs0 =
      .ok (env0.loadXgbBooster "/opt/ml/model/airline_xgb", ModelType.XGBoost,
           "/opt/ml/model/airline_xgb") := by
  have h := (C7_model_precedence env0 fs0).1 "/opt/ml/model/airline_xgb" [] rfl
  simpa using h

/- ## caching lemmas for serve.py -/

theorem predict_cached_state (env : ServeEnv) (fs : ModelFS) (thr : ℚ) (st : ServerState)
    (m : MLModel) (mt : ModelType) (fn : String) (hc : st.cache = some (m, mt, fn))
    (body : Option (List ℚ)) : (predict env fs thr body st).2 = st := by
  cases body with
  | none => rfl
  | some q =>
    simp only [predict, load_trained_model, hc]
    cases hri : runInference env thr m mt fn q <;> simp [hri]

theorem handleRequest_cached_state (env : ServeEnv) (fs : ModelFS) (thr : ℚ) (st : ServerState)
    (m : MLModel) (mt : ModelType) (fn : String) (hc : st.cache = some (m, mt, fn))
    (r : HttpRequest) : (handleRequest env fs thr st r).2 = st := by
  cases r with
  | ping => rfl
  | invocations body => exact predict_cached_state env fs thr st m mt fn hc body

theorem runRequests_cached_state (env : ServeEnv) (fs : ModelFS) (thr : ℚ) (st : ServerState)
    (m : MLModel) (mt : ModelType) (fn : String) (hc : st.cache = some (m, mt, fn))
    (rs : List HttpRequest) : runRequests env fs thr st rs = st := by
  induction rs with
  | nil => rfl
  | cons r rs ih =>
    have h2 : (handleRequest env fs thr st r).2 = st :=
      handleRequest_cached_state env fs thr st m mt fn hc r
    simp only [runRequests, h2, ih]

theorem serveInit_ok (env : ServeEnv) (fs : ModelFS) (st : ServerState)
    (h : serveInit env fs = .ok st) :
    ∃ t, load_trained_model_impl env fs = .ok t ∧
      st = { cache := some t, loadCount := 1 } := by
  cases himpl : load_trained_model_impl env fs with
  | error e =>
    simp [serveInit, load_trained_model, initialServerState, himpl] at h
  | ok t =>
    simp [serveInit, load_trained_model, initialServerState, himpl] at h
    exact ⟨t, rfl, h.symm⟩

/- ## claim theorems: model-loading lifecycle (C1) -/

/-- C1 counterexample: the claim says the model scan and deserialization
happen lazily, on the first request that needs them; but `serve()`
(line 197) calls `load_trained_model` during startup, so with no request
processed at all the load has already run once (ghost counter 1, against
0 in the pre-startup state). -/
theorem C1_eager_load_counterexample :
    serveInit env0 fs0 =
      .ok { cache := some (env0.loadXgbBooster "/opt/ml/model/airline_xgb", ModelType.XGBoost,
                           "/opt/ml/model/airline_xgb"),
            loadCount := 1 } ∧
    initialServerState.loadCount = 0 := ⟨rfl, rfl⟩

/-- C1 (amended): `load_trained_model` performs the filesystem scan and
deserialization at most once per process — eagerly during `serve()`
startup rather than on the first request — and every subsequent call,
across any sequence of requests, returns the identical cached
(model, model_type, model_filename) triple without reloading or changing
server state. -/
theorem C1_single_startup_load : ∀ (env : ServeEnv) (fs : ModelFS) (thr : ℚ) (st : ServerState),
    serveInit env fs = .ok st →
    st.loadCount = 1 ∧
    ∃ t, st.cache = some t ∧
      ∀ rs : List HttpRequest,
        runRequests env fs thr st rs = st ∧
        load_trained_model env fs (runRequests env fs thr st rs) =
          (.ok t, runRequests env fs thr st rs) := by
  intro env fs thr st h
  obtain ⟨t, himpl, hst⟩ := serveInit_ok env fs st h
  subst hst
  refine ⟨rfl, t, rfl, ?_⟩
  intro rs
  obtain ⟨m, mt, fn⟩ := t
  have hrun := runRequests_cached_state env fs thr
    { cache := some (m, mt, fn), loadCount := 1 } m mt fn rfl rs
  rw [hrun]
  exact ⟨rfl, rfl⟩

/-- C1 witness: on the single-XGBoost directory, startup reaches a state
with one load performed, and a ping, a well-formed inference request and a
malformed request leave that state untouched. -/
theorem C1_single_startup_load_witness :
    runRequests env0 fs0 defaultXgboostThreshold st1
      [HttpRequest.ping, HttpRequest.invocations (some [0]), HttpRequest.invocations none] =
      st1 ∧
    st1.loadCount = 1 := by
  obtain ⟨h1, t, hc, h2⟩ := C1_single_startup_load env0 fs0 defaultXgboostThreshold st1 rfl
  exact ⟨(h2 _).1, h1⟩

/- ## claim theorems: response contents (C2, C8) -/

/-- C2 counterexample: with an XGBoost model cached whose raw predict
output on the parsed request `[0]` is `[2]`, the 200 response body is the
JSON of the binarized list `[1]`, not the JSON of the model's predict
output — an in-script numerical transformation is applied. -/
theorem C2_xgboost_transform_counterexample :
    (predict env0 fs0 defaultXgboostThreshold (some [0]) st1).1 =
      .ok { status := 200, body := jsonDumps [1], mimetype := "text/csv" } ∧
    (env0.loadXgbBooster "/opt/ml/model/airline_xgb").predict [0] = [2] ∧
    jsonDumps [1] ≠ jsonDumps [2] := by
  refine ⟨rfl, rfl, by decide⟩

/-- C2 (amended): the serving script delegates all real work to the
third-party model: for every successfully parsed /invocations request
served from the cached model, the 200 response body is exactly the
model's predict output serialized to JSON for RandomForest and KMeans
models (when inference succeeds), while for XGBoost models the predict
output is first binarized against `xgboost_threshold`; no other in-script
numerical transformation is applied. -/
theorem C2_thin_delegation : ∀ (env : ServeEnv) (fs : ModelFS) (thr : ℚ) (st : ServerState)
    (q : List ℚ) (m : MLModel) (fn : String),
    (st.cache = some (m, ModelType.RandomForest, fn) →
      (strContains fn "gpu" && !env.gpuInferenceFlag) = false →
      predict env fs thr (some q) st =
        (.ok { status := 200, body := jsonDumps (m.predict q), mimetype := "text/csv" }, st)) ∧
    (st.cache = some (m, ModelType.KMeans, fn) →
      (strContains fn "gpu" && !env.gpuInferenceFlag) = false →
      predict env fs thr (some q) st =
        (.ok { status := 200, body := jsonDumps (m.predict q), mimetype := "text/csv" }, st)) ∧
    (st.cache = some (m, ModelType.XGBoost, fn) →
      predict env fs thr (some q) st =
        (.ok { status := 200, body := jsonDumps ((m.predict q).map (binarize thr)),
               mimetype := "text/csv" }, st)) := by
  intro env fs thr st q m fn
  refine ⟨?_, ?_, ?_⟩
  · intro hc hgpu
    simp [predict, load_trained_model, hc, runInference, hgpu]
  · intro hc hgpu
    simp [predict, load_trained_model, hc, runInference, hgpu]
  · intro hc
    simp [predict, load_trained_model, hc, runInference]

/-- C2 witness: a cached CPU RandomForest model predicting `[3]` yields
the 200 response whose body is exactly the JSON of `[3]`. -/
theorem C2_thin_delegation_witness :
    predict env0 fs0 defaultXgboostThreshold (some [0]) stRf =
      (.ok { status := 200, body := jsonDumps [3], mimetype := "text/csv" }, stRf) := by
  have h := (C2_thin_delegation env0 fs0 defaultXgboostThreshold stRf [0] (mlModel [3])
      "/opt/ml/model/airline_rf").1 rfl (by decide)
  exact h

/-- C8: when the loaded model is XGBoost, the prediction list of a
successful /invocations response is the raw model outputs compared against
`xgboost_threshold` (0.5 by default) and binarized, so every element is
exactly 0 or 1. -/
theorem C8_xgboost_binarized : ∀ (env : ServeEnv) (fs : ModelFS) (thr : ℚ) (st : ServerState)
    (q : List ℚ) (m : MLModel) (fn : String),
    st.cache = some (m, ModelType.XGBoost, fn) →
    (predict env fs thr (some q) st =
      (.ok { status := 200, body := jsonDumps ((m.predict q).map (binarize thr)),
             mimetype := "text/csv" }, st)) ∧
    (∀ p ∈ (m.predict q).map (binarize thr), p = 0 ∨ p = 1) ∧
    defaultXgboostThreshold = 1 / 2 := by
  intro env fs thr st q m fn hc
  refine ⟨by simp [predict, load_trained_model, hc, runInference], ?_, ?_⟩
  · intro p hp
    simp only [List.mem_map] at hp
    obtain ⟨x, _, hx⟩ := hp
    by_cases h : x > thr
    · right; rw [← hx]; simp [binarize, h]
    · left; rw [← hx]; simp [binarize, h]
  · norm_num [defaultXgboostThreshold, Rat.mk'_eq_divInt, Rat.divInt_eq_div]

/-- C8 witness: the cached XGBoost model returning raw `[2]` produces the
200 response serializing the binarized list `[1]`. -/
theorem C8_xgboost_binarized_witness :
    predict env0 fs0 defaultXgboostThreshold (some [0]) st1 =
      (.ok { status := 200, body := jsonDumps [1], mimetype := "text/csv" }, st1) := by
  have h := C8_xgboost_binarized env0 fs0 defaultXgboostThreshold st1 [0]
      (env0.loadXgbBooster "/opt/ml/model/airline_xgb") "/opt/ml/model/airline_xgb" rfl
  exact h.1

/- ## claim theorems: error interception (C3) -/

/-- C3 counterexample: an /invocations body that fails to parse is
intercepted by the handler and converted into a distinct HTTP error
response (status 415), rather than propagating unhandled — so the program
does intercept failures and continue service. -/
theorem C3_interception_counterexample :
    predict env0 fs0 defaultXgboostThreshold none initialServerState =
      (.ok parseFailureResponse, initialServerState) ∧
    parseFailureResponse.status = 415 := ⟨rfl, rfl⟩

/-- C3 (amended): the /invocations handler intercepts failures and
continues service — a parse failure becomes the fixed 415 response and an
inference failure becomes a 400 "Inference failure" response, both leaving
the cached state unchanged; only an exception raised by
`load_trained_model` itself (called outside both try blocks) escapes the
handler unhandled. -/
theorem C3_error_handling : ∀ (env : ServeEnv) (fs : ModelFS) (thr : ℚ) (st : ServerState)
    (q : List ℚ) (m : MLModel) (fn : String) (e : String),
    predict env fs thr none st = (.ok parseFailureResponse, st) ∧
    (st.cache = some (m, ModelType.RandomForest, fn) →
      (strContains fn "gpu" && !env.gpuInferenceFlag) = true →
      predict env fs thr (some q) st =
        (.ok { status := 400,
               body := "Inference failure: attempting to run CPU inference on a GPU trained RandomForest model\n",
               mimetype := "text/csv" }, st)) ∧
    (st.cache = none → load_trained_model_impl env fs = .error e →
      predict env fs thr (some q) st =
        (.error e, { st with loadCount := st.loadCount + 1 })) := by
  intro env fs thr st q m fn e
  refine ⟨rfl, ?_, ?_⟩
  · intro hc hgpu
    simp [predict, load_trained_model, hc, runInference, hgpu]
  · intro hc he
    simp [predict, load_trained_model, hc, he]

/-- C3 witness: a request against a cached GPU-trained RandomForest model
in the CPU environment gets the 400 inference-failure response. -/
theorem C3_error_handling_witness :
    predict env0 fs0 defaultXgboostThreshold (some [0]) stRfGpu =
      (.ok { status := 400,
             body := "Inference failure: attempting to run CPU inference on a GPU trained RandomForest model\n",
             mimetype := "text/csv" }, stRfGpu) := by
  have h := (C3_error_handling env0 fs0 defaultXgboostThreshold stRfGpu [0] (mlModel [3])
      "/opt/ml/model/airline_gpu_rf" "").2.1 rfl (by decide)
  exact h

/- ## checklist-generation lemmas (C5) -/

theorem urlsFor_cons (p : String) (f : SrcFile) (rest : List SrcFile) :
    urlsFor p (f :: rest) =
      if (eligible f && decide (priorityOf f = p)) = true then urlOf f :: urlsFor p rest
      else urlsFor p rest := by
  simp only [urlsFor, List.filter_cons]
  by_cases h : (eligible f && decide (priorityOf f = p)) = true <;> simp [h]

theorem buildLists_ok (files : List SrcFile) :
    ∀ pl : PriorityLists,
    (∀ f ∈ files, eligible f = true → priorityOf f ∈ validPriorities) →
    buildLists files pl = .ok
      { index := pl.index ++ urlsFor "index" files,
        p0 := pl.p0 ++ urlsFor "p0" files,
        p1 := pl.p1 ++ urlsFor "p1" files,
        p2 := pl.p2 ++ urlsFor "p2" files } := by
  induction files with
  | nil => intro pl _; simp [buildLists, urlsFor]
  | cons f rest ih =>
    intro pl hvalid
    have hrest : ∀ g ∈ rest, eligible g = true → priorityOf g ∈ validPriorities :=
      fun g hg => hvalid g (List.mem_cons_of_mem f hg)
    by_cases he : eligible f = true
    · have hp := hvalid f (List.mem_cons_self f rest) he
      simp only [validPriorities, List.mem_cons, List.not_mem_nil, or_false] at hp
      rcases hp with h | h | h | h
      · have haf : addFile pl f = .ok { pl with index := pl.index ++ [urlOf f] } := by
          simp [addFile, he, h]
        simp only [buildLists, haf]
        rw [ih _ hrest]
        simp [urlsFor_cons, he, h]
      · have haf : addFile pl f = .ok { pl with p0 := pl.p0 ++ [urlOf f] } := by
          simp [addFile, he, h]
        simp only [buildLists, haf]
        rw [ih _ hrest]
        simp [urlsFor_cons, he, h]
      · have haf : addFile pl f = .ok { pl with p1 := pl.p1 ++ [urlOf f] } := by
          simp [addFile, he, h]
        simp only [buildLists, haf]
        rw [ih _ hrest]
        simp [urlsFor_cons, he, h]
      · have haf : addFile pl f = .ok { pl with p2 := pl.p2 ++ [urlOf f] } := by
          simp [addFile, he, h]
        simp only [buildLists, haf]
        rw [ih _ hrest]
        simp [urlsFor_cons, he, h]
    · have he2 : eligible f = false := by simpa using he
      have haf : addFile pl f = .ok pl := by simp [addFile, he2]
      simp only [buildLists, haf]
      rw [ih _ hrest]
      simp [urlsFor_cons, he2]

theorem addFile_ok_of_valid (pl : PriorityLists) (f : SrcFile)
    (h : eligible f = true → priorityOf f ∈ validPriorities) :
    ∃ pl2, addFile pl f = .ok pl2 := by
  by_cases he : eligible f = true
  · have hp := h he
    simp only [validPriorities, List.mem_cons, List.not_mem_nil, or_false] at hp
    rcases hp with h1 | h1 | h1 | h1
    · exact ⟨{ pl with index := pl.index ++ [urlOf f] }, by simp [addFile, he, h1]⟩
    · exact ⟨{ pl with p0 := pl.p0 ++ [urlOf f] }, by simp [addFile, he, h1]⟩
    · exact ⟨{ pl with p1 := pl.p1 ++ [urlOf f] }, by simp [addFile, he, h1]⟩
    · exact ⟨{ pl with p2 := pl.p2 ++ [urlOf f] }, by simp [addFile, he, h1]⟩
  · have he2 : eligible f = false := by simpa using he
    exact ⟨pl, by simp [addFile, he2]⟩

theorem buildLists_first_error (files : List SrcFile) :
    ∀ pl : PriorityLists,
    (∃ f ∈ files, eligible f = true ∧ priorityOf f ∉ validPriorities) →
    ∃ f, f ∈ files ∧ eligible f = true ∧ priorityOf f ∉ validPriorities ∧
      buildLists files pl = .error (unknownPriorityMsg (priorityOf f) (pathStr f)) := by
  induction files with
  | nil =>
    intro pl h
    obtain ⟨f, hf, _⟩ := h
    exact absurd hf (List.not_mem_nil f)
  | cons g rest ih =>
    intro pl hex
    by_cases hbad : eligible g = true ∧ priorityOf g ∉ validPriorities
    · obtain ⟨hge, hgp⟩ := hbad
      have h1 : ¬ priorityOf g = "index" := fun hh => hgp (by simp [validPriorities, hh])
      have h2 : ¬ priorityOf g = "p0" := fun hh => hgp (by simp [validPriorities, hh])
      have h3 : ¬ priorityOf g = "p1" := fun hh => hgp (by simp [validPriorities, hh])
      have h4 : ¬ priorityOf g = "p2" := fun hh => hgp (by simp [validPriorities, hh])
      have haf : addFile pl g = .error (unknownPriorityMsg (priorityOf g) (pathStr g)) := by
        simp [addFile, hge, h1, h2, h3, h4]
      refine ⟨g, List.mem_cons_self g rest, hge, hgp, ?_⟩
      simp only [buildLists, haf]
    · have hgood : eligible g = true → priorityOf g ∈ validPriorities := by
        intro hge
        by_contra hgp
        exact hbad ⟨hge, hgp⟩
      obtain ⟨pl2, haf⟩ := addFile_ok_of_valid pl g hgood
      obtain ⟨f, hf, hfe, hfp⟩ := hex
      have hfrest : ∃ f2 ∈ rest, eligible f2 = true ∧ priorityOf f2 ∉ validPriorities := by
        rcases List.mem_cons.mp hf with hfg | hr
        · subst hfg
          exact absurd ⟨hfe, hfp⟩ hbad
        · exact ⟨f, hr, hfe, hfp⟩
      obtain ⟨f2, hf2, hf2e, hf2p, hbl⟩ := ih pl2 hfrest
      refine ⟨f2, List.mem_cons_of_mem g hf2, hf2e, hf2p, ?_⟩
      simp only [buildLists, haf]
      exact hbl

theorem renderSections_spec (files : List SrcFile) :
    renderSections
      { index := urlsFor "index" files, p0 := urlsFor "p0" files,
        p1 := urlsFor "p1" files, p2 := urlsFor "p2" files } =
      specChecklist files := by
  simp only [renderSections, specChecklist, validPriorities, List.filterMap_cons,
    List.filterMap_nil]
  by_cases h1 : urlsFor "index" files = [] <;>
    by_cases h2 : urlsFor "p0" files = [] <;>
      by_cases h3 : urlsFor "p1" files = [] <;>
        by_cases h4 : urlsFor "p2" files = [] <;>
          simp [h1, h2, h3, h4, sectionName]

/- ## claim theorem: checklist generation (C5) -/

/-- C5: over any listing of the files under source/, the
checklist-generation script emits exactly one entry per eligible page
(suffix .md or .ipynb, outside _includes and .ipynb_checkpoints), with
URL the nightly base followed by the suffix-stripped path relative to
source/ (the parent directory for index.md files), grouped under the
page's review_priority (p2 default, and for all notebooks), sections in
the fixed order Index/Non-technical, P0, P1, P2 with empty groups
omitted, entries sorted by ascending URL within each group; a
review_priority outside index/p0/p1/p2 makes the script fail with the
ValueError naming the page. -/
theorem C5_checklist_generation : ∀ files : List SrcFile,
    ((∀ f ∈ files, eligible f = true → priorityOf f ∈ validPriorities) →
      genChecklist files = .ok (specChecklist files)) ∧
    (∀ p, List.Sorted urlRel (sortUrls (urlsFor p files)) ∧
      (sortUrls (urlsFor p files)).Perm (urlsFor p files)) ∧
    ((∃ f ∈ files, eligible f = true ∧ priorityOf f ∉ validPriorities) →
      ∃ f, f ∈ files ∧ eligible f = true ∧ priorityOf f ∉ validPriorities ∧
        genChecklist files = .error (unknownPriorityMsg (priorityOf f) (pathStr f))) := by
  intro files
  haveI : IsTrans String urlRel := ⟨fun a b c => urlLe_trans a b c⟩
  haveI : IsTotal String urlRel := ⟨fun a b => (Bool.or_eq_true _ _).mp (urlLe_total a b)⟩
  refine ⟨?_, ?_, ?_⟩
  · intro hvalid
    have hb := buildLists_ok files emptyPriorityLists hvalid
    simp only [genChecklist, Except.map]
    rw [hb]
    exact congrArg Except.ok (renderSections_spec files)
  · intro p
    exact ⟨List.sorted_insertionSort urlRel _, List.perm_insertionSort urlRel _⟩
  · intro hex
    obtain ⟨f, hf, hfe, hfp, hbl⟩ := buildLists_first_error files emptyPriorityLists hex
    exact ⟨f, hf, hfe, hfp, by simp [genChecklist, hbl, Except.map]⟩

/-- C5 witness: on a three-page listing (a top-level index.md of priority
index, a p0 page tools/dask.md, and a notebook), the script emits the
three sections with the expected URLs; the P1 group, being empty, is
omitted. -/
theorem C5_checklist_generation_witness :
    genChecklist [demoIndexFile, demoTools, demoNotebook] =
      .ok [("Index/Non-technical", [baseUrl]),
           ("P0", [baseUrl ++ "tools/dask"]),
           ("P2", [baseUrl ++ "examples/xgboost/notebook"])] := by
  have h := (C5_checklist_generation [demoIndexFile, demoTools, demoNotebook]).1 (by decide)
  rw [h]
  rfl
